import Mathlib

/-!
Shallow embedding of `src/vector_store.py` (class `VectorStore`) of the
story-generator repository, together with proofs about its specified
behaviour.

The Python code wraps a sentence-embedding model and a Qdrant vector-database
client.  We model:

* payloads (Python dicts with string keys) as insertion-ordered association
  lists with overwriting insertion (`dictInsert`), matching Python dict
  literal semantics (`{"a": x, **rest}`: later keys overwrite, position of a
  key is where it first appeared);
* the database as a list of named collections, each holding a list of points;
* the process state (`VSState`) additionally records whether the embedding
  model has been loaded and a trace of external calls and printed lines;
* each external call can be made to fail through a `FailSpec`; a Python
  `try:` block becomes a body returning `Except (String × VSState) VSState`,
  whose error carries the message and the state at the point of failure, and
  the enclosing method catches it exactly as the `except` clause does.

The embedding function of the sentence-transformer model and the similarity
score of the database are abstract parameters (`enc`, `sim`): the claims do
not depend on their values.
-/

namespace VectorStoreSpec

/-- A payload value: a string or a number (scores are numbers). -/
inductive Val where
  | str : String → Val
  | num : Int → Val
  deriving DecidableEq, Repr

/-- A Python dict with string keys, as an insertion-ordered association list. -/
abbrev Payload := List (String × Val)

/-- `d.get(k)` : the value at the first occurrence of key `k`. -/
def dictGet (d : Payload) (k : String) : Option Val :=
  (d.find? (fun kv => kv.1 == k)).map (fun kv => kv.2)

/-- `d[k] = v` : overwrite in place if the key is present, else append. -/
def dictInsert (d : Payload) (k : String) (v : Val) : Payload :=
  if d.any (fun kv => kv.1 == k) then
    d.map (fun kv => if kv.1 == k then (k, v) else kv)
  else d ++ [(k, v)]

/-- `{**d, **kvs}` : insert every pair of `kvs` into `d`, in order. -/
def dictExtend (d : Payload) (kvs : Payload) : Payload :=
  kvs.foldl (fun acc kv => dictInsert acc kv.1 kv.2) d

/-- Payload built in `add_texts`: `{"text": text, **(meta or {})}`. -/
def mkPayload (text : String) (meta : Payload) : Payload :=
  dictExtend [("text", Val.str text)] meta

/-- An indexed point: integer id, embedding vector, payload. -/
structure Point where
  id : Nat
  vector : List Int
  payload : Payload
  deriving DecidableEq, Repr

/-- A named collection of fixed dimensionality. -/
structure Collection where
  name : String
  dim : Nat
  points : List Point
  deriving DecidableEq, Repr

/-- External effects: model loading, embedding-model calls, database calls,
and lines printed to standard output. -/
inductive Eff where
  | loadModel
  | encode
  | getCollections
  | createCollection
  | scroll
  | upsert
  | search
  | printLine (msg : String)
  deriving DecidableEq, Repr

/-- The observable state: the database collections, whether the lazily
initialized embedding model has been loaded (`self._encoder is not None`),
and the trace of external calls and printed lines. -/
structure VSState where
  collections : List Collection
  encoderLoaded : Bool
  calls : List Eff
  deriving DecidableEq, Repr

/-- Append one effect to the trace. -/
def traceCall (s : VSState) (e : Eff) : VSState :=
  { s with calls := s.calls ++ [e] }

/-- `print(msg)` in an `except` clause. -/
def printLine (s : VSState) (msg : String) : VSState :=
  traceCall s (Eff.printLine msg)

/-- Names of the existing collections (`get_collections().collections`). -/
def collectionNames (s : VSState) : List String :=
  s.collections.map (fun c => c.name)

/-- Look up a collection by name. -/
def findCollection (s : VSState) (cname : String) : Option Collection :=
  s.collections.find? (fun c => c.name == cname)

/-- `client.create_collection`: add an empty collection with the given name. -/
def clientCreateCollection (s : VSState) (cname : String) (dim : Nat) : VSState :=
  { s with collections := s.collections ++ [⟨cname, dim, []⟩] }

/-- `client.scroll(collection_name, limit)[0]`: at most `limit` stored points. -/
def scrollPoints (s : VSState) (cname : String) (limit : Nat) : List Point :=
  match findCollection s cname with
  | some c => c.points.take limit
  | none => []

/-- Upsert a single point: replace the point with the same id if present,
else append. -/
def upsertOne (pts : List Point) (p : Point) : List Point :=
  if pts.any (fun q => q.id == p.id) then
    pts.map (fun q => if q.id == p.id then p else q)
  else pts ++ [p]

/-- `client.upsert(collection_name, points)`: upsert the batch in order. -/
def clientUpsert (s : VSState) (cname : String) (newPts : List Point) : VSState :=
  { s with collections := s.collections.map (fun c =>
      if c.name == cname then { c with points := newPts.foldl upsertOne c.points }
      else c) }

/-- Score every stored point against the query vector. -/
def scoredPoints (sim : List Int → List Int → Int) (qv : List Int)
    (pts : List Point) : List (Point × Int) :=
  pts.map (fun p => (p, sim qv p.vector))

/-- Descending order on similarity scores. -/
def scoreGe (a b : Point × Int) : Prop := b.2 ≤ a.2

instance : DecidableRel scoreGe := fun a b => Int.decLe b.2 a.2

/-- Modelled from the spec: the vector-database client's search
(`query(vector, limit)`) "returns up to `limit` nearest points ordered by
similarity score, descending".  The client library is external to the
repository; we model its contract: score all points of the collection, sort
by score descending, return the first `limit`. -/
def clientSearch (s : VSState) (cname : String) (qv : List Int) (limit : Nat)
    (sim : List Int → List Int → Int) : List (Point × Int) :=
  match findCollection s cname with
  | some c => (List.insertionSort scoreGe (scoredPoints sim qv c.points)).take limit
  | none => []

/-- The `encoder` property: load the model on first access, cache it. -/
def getEncoder (s : VSState) : VSState :=
  if s.encoderLoaded then s
  else { s with encoderLoaded := true, calls := s.calls ++ [Eff.loadModel] }

/-- `encoder.get_sentence_embedding_dimension()` for `all-MiniLM-L6-v2`. -/
def encDim : Nat := 384

/-- Which external calls fail (raise) during an operation. -/
structure FailSpec where
  getCollectionsFails : Bool
  createFails : Bool
  encodeFails : Bool
  scrollFails : Bool
  upsertFails : Bool
  searchFails : Bool
  deriving DecidableEq, Repr

/-- No external call fails. -/
def noFail : FailSpec := ⟨false, false, false, false, false, false⟩

/-- The `try:` block of `VectorStore._create_collection`: list existing
collection names; if the name is absent, access the encoder (loading the
model to obtain the vector dimension) and create the collection. -/
def createCollectionBody (fs : FailSpec) (cname : String) (s : VSState) :
    Except (String × VSState) VSState :=
  let s := traceCall s Eff.getCollections
  if fs.getCollectionsFails then .error ("connection error", s)
  else if cname ∈ collectionNames s then .ok s
  else
    let s := getEncoder s
    let s := traceCall s Eff.createCollection
    if fs.createFails then .error ("create error", s)
    else .ok (clientCreateCollection s cname encDim)

/-- `VectorStore._create_collection`: run the body, catch any exception and
print it. -/
def _create_collection (fs : FailSpec) (cname : String) (s : VSState) : VSState :=
  match createCollectionBody fs cname s with
  | .ok s' => s'
  | .error (e, s') => printLine s' ("Error creating collection: " ++ e)

/-- `VectorStore.__init__` on a database whose current collections are
`dbCollections`: the encoder starts unloaded (`self._encoder = None`) and the
constructor calls `_create_collection`. -/
def vsInit (fs : FailSpec) (cname : String) (dbCollections : List Collection) : VSState :=
  _create_collection fs cname ⟨dbCollections, false, []⟩

/-- The point-building loop of `add_texts`: for the `i`-th element of
`zip(vectors, texts, metadata)`, call `scroll(collection_name, limit=1)`,
set `point_id = i + len(scroll_result)`, and append the point with payload
`{"text": text, **(meta or {})}`. -/
def buildPoints (fs : FailSpec) (cname : String) :
    Nat → List ((List Int × String) × Payload) → VSState → List Point →
    Except (String × VSState) (VSState × List Point)
  | _, [], s, acc => .ok (s, acc)
  | i, ((v, t), m) :: rest, s, acc =>
    let s := traceCall s Eff.scroll
    if fs.scrollFails then .error ("scroll error", s)
    else
      let pid := i + (scrollPoints s cname 1).length
      buildPoints fs cname (i + 1) rest s (acc ++ [⟨pid, v, mkPayload t m⟩])

/-- The `try:` block of `VectorStore.add_texts`: encode the whole batch,
build the points (the loop above), and if the point list is non-empty,
upsert it. -/
def addTextsBody (fs : FailSpec) (enc : String → List Int) (cname : String)
    (texts : List String) (metadata : List Payload) (s : VSState) :
    Except (String × VSState) VSState :=
  let s := getEncoder s
  let s := traceCall s Eff.encode
  if fs.encodeFails then .error ("encode error", s)
  else
    let vectors := texts.map enc
    match buildPoints fs cname 0 ((vectors.zip texts).zip metadata) s [] with
    | .error e => .error e
    | .ok (s, points) =>
      if points.isEmpty then .ok s
      else
        let s := traceCall s Eff.upsert
        if fs.upsertFails then .error ("upsert error", s)
        else .ok (clientUpsert s cname points)

/-- `VectorStore.add_texts` (the spec's `seed`): return immediately on empty
input; default metadata to `[{}] * len(texts)`; run the body and catch any
exception, printing it. -/
def add_texts (fs : FailSpec) (enc : String → List Int) (cname : String)
    (texts : List String) (metadata : Option (List Payload)) (s : VSState) : VSState :=
  if texts.isEmpty then s
  else
    let md := metadata.getD (List.replicate texts.length [])
    match addTextsBody fs enc cname texts md s with
    | .ok s' => s'
    | .error (e, s') => printLine s' ("Error adding texts to vector store: " ++ e)

/-- One search result, the Python dict literal
`{"text": payload.get("text", ""), "score": result.score,
**{k: v for k, v in payload.items() if k != "text"}}`. -/
def toDict (p : Point) (score : Int) : Payload :=
  dictExtend
    [("text", (dictGet p.payload "text").getD (Val.str "")), ("score", Val.num score)]
    (p.payload.filter (fun kv => kv.1 != "text"))

/-- The `try:` block of `VectorStore.search`: encode the query, run the
client search, and build the result dicts. -/
def searchBody (fs : FailSpec) (enc : String → List Int)
    (sim : List Int → List Int → Int) (cname : String) (query : String)
    (limit : Nat) (s : VSState) :
    Except (String × VSState) (VSState × List Payload) :=
  let s := getEncoder s
  let s := traceCall s Eff.encode
  if fs.encodeFails then .error ("encode error", s)
  else
    let qv := enc query
    let s := traceCall s Eff.search
    if fs.searchFails then .error ("search error", s)
    else
      let results := clientSearch s cname qv limit sim
      .ok (s, results.map (fun r => toDict r.1 r.2))

/-- `VectorStore.search` (the spec's `retrieve`): run the body and on any
exception print it and return the empty list. -/
def search (fs : FailSpec) (enc : String → List Int)
    (sim : List Int → List Int → Int) (cname : String) (query : String)
    (limit : Nat) (s : VSState) : VSState × List Payload :=
  match searchBody fs enc sim cname query limit s with
  | .ok r => r
  | .error (e, s') => (printLine s' ("Error searching vector store: " ++ e), [])

end VectorStoreSpec

namespace VectorStoreSpec

/-! ### Concrete instances used by counterexamples and witnesses -/

/-- A concrete embedding function for witnesses. -/
def encA : String → List Int := fun t => [(t.length : Int)]

/-- A concrete similarity function (dot product) for witnesses. -/
def simA : List Int → List Int → Int :=
  fun a b => (a.zip b).foldl (fun acc p => acc + p.1 * p.2) 0

/-- A store freshly constructed against an empty database. -/
def stateEmptyKB : VSState := vsInit noFail "kb" []

/-- After seeding two texts (metadata keys all `k1`). -/
def stateAB : VSState :=
  add_texts noFail encA "kb" ["a", "b"]
    (some [[("k1", Val.num 1)], [("k1", Val.num 2)]]) stateEmptyKB

/-- After a second seed of one text (metadata key `k2`, disjoint from `k1`). -/
def stateABC : VSState :=
  add_texts noFail encA "kb" ["c"] (some [[("k2", Val.num 3)]]) stateAB

/-- Whether some stored point of collection `cname` has payload text `t`. -/
def textStored (s : VSState) (cname t : String) : Bool :=
  match findCollection s cname with
  | some c => c.points.any (fun p => decide (dictGet p.payload "text" = some (Val.str t)))
  | none => false

/-! ### Claims -/

/-- C1: the claim states that on a collection holding `n` points the `i`-th
text of a batch is assigned identifier `n + i`.  The code computes
`i + len(scroll(limit=1)[0]) = i + min(n, 1)`: on a collection holding the
two points with ids 0 and 1, the single text of the next batch is assigned
id 1 (`min(2,1) + 0`), not 2, overwriting the existing point 1. -/
theorem C1_id_is_bounded_scroll_not_size :
    ((findCollection stateAB "kb").map (fun c => c.points.map Point.id) = some [0, 1])
    ∧ ((findCollection stateABC "kb").map (fun c => c.points.map Point.id) = some [0, 1])
    ∧ ((findCollection stateABC "kb").map (fun c =>
          c.points.map (fun p => dictGet p.payload "text"))
        = some [some (Val.str "a"), some (Val.str "c")]) := by decide

/-- C2: the claim states that two sequential seeds with disjoint metadata keys
retain every text of both calls.  Seeding `["a", "b"]` and then `["c"]`
(metadata keys `k1` and `k2`, disjoint) reuses identifier 1 for `"c"`, so the
text `"b"` of the first call is no longer stored afterwards. -/
theorem C2_second_seed_overwrites_first :
    textStored stateAB "kb" "b" = true
    ∧ textStored stateABC "kb" "b" = false
    ∧ textStored stateABC "kb" "a" = true
    ∧ textStored stateABC "kb" "c" = true := by decide

/-- C3: if any internal step of `search` fails (the embedding call or the
vector-database search raises), `search` returns the empty result list and no
exception propagates. -/
theorem C3_search_failure_returns_empty (fs : FailSpec) (enc : String → List Int)
    (sim : List Int → List Int → Int) (cname query : String) (limit : Nat)
    (s : VSState) (h : fs.encodeFails = true ∨ fs.searchFails = true) :
    (search fs enc sim cname query limit s).2 = [] := by
  unfold search searchBody
  rcases h with h | h
  · simp [h]
  · cases hE : fs.encodeFails <;> simp [h, hE]

/-- Witness for C3 at a concrete failing search. -/
theorem C3_search_failure_returns_empty_witness :
    (search ⟨false, false, false, false, false, true⟩ encA simA "kb" "q" 5 stateAB).2 = [] :=
  C3_search_failure_returns_empty _ _ _ _ _ _ _ (Or.inr rfl)

/-- C7: seeding with an empty text sequence is a complete no-op: the state
(collections, encoder flag, and the trace of external calls and prints) is
returned unchanged, so no call to the embedding model or the database client
is issued. -/
theorem C7_empty_seed_is_noop (fs : FailSpec) (enc : String → List Int)
    (cname : String) (metadata : Option (List Payload)) (s : VSState) :
    add_texts fs enc cname [] metadata s = s := rfl

/-- C8 counterexample: constructing the store against an empty database (the
default in-memory case) must create the collection, which queries the
embedding dimension, so the model is already loaded when the constructor
returns — refuting the claim that after construction the model is unloaded. -/
theorem C8_init_loads_encoder :
    (vsInit noFail "story_knowledge_base" []).encoderLoaded = true
    ∧ Eff.loadModel ∈ (vsInit noFail "story_knowledge_base" []).calls := by decide

/-- C8 (amended): the encoder accessor is lazy and cached — the model loads on
first access and a loaded model is never reloaded; construction loads the
model exactly when it must create the collection, and when the named
collection already exists construction leaves the model unloaded. -/
theorem C8_encoder_lazy_amended (cname : String) (db : List Collection)
    (s s₂ : VSState) (h₁ : cname ∈ db.map Collection.name)
    (h₂ : s.encoderLoaded = true) :
    (vsInit noFail cname db).encoderLoaded = false
    ∧ Eff.loadModel ∉ (vsInit noFail cname db).calls
    ∧ (getEncoder s₂).encoderLoaded = true
    ∧ getEncoder s = s := by
  have hmem : cname ∈ collectionNames ⟨db, false, [Eff.getCollections]⟩ := by
    simpa [collectionNames] using h₁
  refine ⟨?_, ?_, ?_, ?_⟩
  · unfold vsInit _create_collection createCollectionBody
    simp [noFail, traceCall, hmem]
  · unfold vsInit _create_collection createCollectionBody
    simp [noFail, traceCall, hmem]
  · unfold getEncoder
    split <;> simp_all
  · unfold getEncoder
    simp [h₂]

/-- Witness for C8 (amended) at a concrete pre-existing collection and a
concrete loaded state. -/
theorem C8_encoder_lazy_amended_witness :
    (vsInit noFail "kb" [⟨"kb", 384, []⟩]).encoderLoaded = false
    ∧ Eff.loadModel ∉ (vsInit noFail "kb" [⟨"kb", 384, []⟩]).calls
    ∧ (getEncoder ⟨[], false, []⟩).encoderLoaded = true
    ∧ getEncoder ⟨[], true, []⟩ = ⟨[], true, []⟩ :=
  C8_encoder_lazy_amended "kb" [⟨"kb", 384, []⟩] ⟨[], true, []⟩ ⟨[], false, []⟩
    (by decide) rfl

end VectorStoreSpec

namespace VectorStoreSpec

/-- Every external call fails. -/
def allFail : FailSpec := ⟨true, true, true, true, true, true⟩

/-- The trace does not change the stored collections. -/
lemma collections_traceCall (s : VSState) (e : Eff) :
    (traceCall s e).collections = s.collections := rfl

/-- Loading the encoder does not change the stored collections. -/
lemma collections_getEncoder (s : VSState) :
    (getEncoder s).collections = s.collections := by
  unfold getEncoder; split <;> rfl

/-- The trace does not change the collection names. -/
lemma collectionNames_traceCall (s : VSState) (e : Eff) :
    collectionNames (traceCall s e) = collectionNames s := rfl

/-- C4: collection creation, seeding, and search catch any failure of an
underlying embedding-model or vector-database call at their boundary, print
the error, and return normally: a state with the error logged for creation
and seeding, and additionally the empty result list for search — no
exception is re-raised. -/
theorem C4_failures_caught_and_logged (fs : FailSpec) (enc : String → List Int)
    (sim : List Int → List Int → Int) (cname query : String)
    (texts : List String) (metadata : Option (List Payload)) (limit : Nat)
    (s : VSState) (e₁ e₂ e₃ : String) (t₁ t₂ t₃ : VSState)
    (h₁ : createCollectionBody fs cname s = .error (e₁, t₁))
    (h₂ : addTextsBody fs enc cname texts
            (metadata.getD (List.replicate texts.length [])) s = .error (e₂, t₂))
    (hne : texts.isEmpty = false)
    (h₃ : searchBody fs enc sim cname query limit s = .error (e₃, t₃)) :
    _create_collection fs cname s = printLine t₁ ("Error creating collection: " ++ e₁)
    ∧ add_texts fs enc cname texts metadata s
        = printLine t₂ ("Error adding texts to vector store: " ++ e₂)
    ∧ search fs enc sim cname query limit s
        = (printLine t₃ ("Error searching vector store: " ++ e₃), []) := by
  refine ⟨?_, ?_, ?_⟩
  · unfold _create_collection
    rw [h₁]
  · unfold add_texts
    simp [hne, h₂]
  · unfold search
    rw [h₃]

/-- Witness for C4: with every underlying call failing, all three operations
return normally with the error printed. -/
theorem C4_failures_caught_and_logged_witness :
    _create_collection allFail "kb" ⟨[], false, []⟩
        = printLine ⟨[], false, [Eff.getCollections]⟩
            ("Error creating collection: " ++ "connection error")
    ∧ add_texts allFail encA "kb" ["a"] none ⟨[], false, []⟩
        = printLine ⟨[], true, [Eff.loadModel, Eff.encode]⟩
            ("Error adding texts to vector store: " ++ "encode error")
    ∧ search allFail encA simA "kb" "q" 5 ⟨[], false, []⟩
        = (printLine ⟨[], true, [Eff.loadModel, Eff.encode]⟩
            ("Error searching vector store: " ++ "encode error"), []) :=
  C4_failures_caught_and_logged allFail encA simA "kb" "q" ["a"] none 5
    ⟨[], false, []⟩ _ _ _ _ _ _ rfl rfl rfl rfl

/-- On the no-failure path, creation leaves the collections unchanged when the
name exists and appends a fresh collection otherwise. -/
lemma create_collection_noFail_collections (cname : String) (s : VSState) :
    (_create_collection noFail cname s).collections
      = if cname ∈ collectionNames s then s.collections
        else s.collections ++ [⟨cname, encDim, []⟩] := by
  unfold _create_collection createCollectionBody
  by_cases hc : cname ∈ collectionNames s
  · simp [noFail, collectionNames_traceCall, hc, collections_traceCall]
  · simp [noFail, collectionNames_traceCall, hc, clientCreateCollection,
      collections_traceCall, collections_getEncoder]

/-- Collection names after a no-failure creation. -/
lemma create_collection_noFail_names (cname : String) (s : VSState) :
    collectionNames (_create_collection noFail cname s)
      = if cname ∈ collectionNames s then collectionNames s
        else collectionNames s ++ [cname] := by
  have h := create_collection_noFail_collections cname s
  unfold collectionNames at *
  rw [h]
  split <;> simp

/-- C5: collection creation is idempotent: a second invocation changes the
stored collections in no way, and after one invocation exactly one collection
with the requested name exists (assuming the database did not already hold
duplicate collections of that name). -/
theorem C5_create_collection_idempotent (cname : String) (s : VSState)
    (h : (collectionNames s).count cname ≤ 1) :
    (_create_collection noFail cname (_create_collection noFail cname s)).collections
      = (_create_collection noFail cname s).collections
    ∧ (collectionNames (_create_collection noFail cname s)).count cname = 1 := by
  have hmem : cname ∈ collectionNames (_create_collection noFail cname s) := by
    rw [create_collection_noFail_names]
    by_cases hc : cname ∈ collectionNames s <;> simp [hc]
  constructor
  · rw [create_collection_noFail_collections cname (_create_collection noFail cname s)]
    simp [hmem]
  · rw [create_collection_noFail_names]
    by_cases hc : cname ∈ collectionNames s
    · have h1 : (collectionNames s).count cname ≠ 0 := by
        intro h0
        exact (List.count_eq_zero.mp h0) hc
      simp [hc]
      omega
    · have h0 : (collectionNames s).count cname = 0 := List.count_eq_zero.mpr hc
      simp [hc, List.count_append, h0]

/-- Witness for C5 on a database already holding the collection. -/
theorem C5_create_collection_idempotent_witness :
    (_create_collection noFail "kb"
        (_create_collection noFail "kb" ⟨[⟨"kb", 384, []⟩], false, []⟩)).collections
      = (_create_collection noFail "kb" ⟨[⟨"kb", 384, []⟩], false, []⟩).collections
    ∧ (collectionNames
        (_create_collection noFail "kb" ⟨[⟨"kb", 384, []⟩], false, []⟩)).count "kb" = 1 :=
  C5_create_collection_idempotent "kb" ⟨[⟨"kb", 384, []⟩], false, []⟩ (by decide)

end VectorStoreSpec

namespace VectorStoreSpec

instance : IsTotal (Point × Int) scoreGe := ⟨fun a b => le_total b.2 a.2⟩

instance : IsTrans (Point × Int) scoreGe := ⟨fun _ _ _ h₁ h₂ => le_trans h₂ h₁⟩

/-- The client search result depends only on the stored collections. -/
lemma clientSearch_congr (s₁ s₂ : VSState) (cname : String) (qv : List Int)
    (limit : Nat) (sim : List Int → List Int → Int)
    (h : s₁.collections = s₂.collections) :
    clientSearch s₁ cname qv limit sim = clientSearch s₂ cname qv limit sim := by
  unfold clientSearch findCollection
  rw [h]

/-- Reduction of `search` on the no-failure path. -/
lemma search_noFail_eq (enc : String → List Int) (sim : List Int → List Int → Int)
    (cname query : String) (limit : Nat) (s : VSState) :
    search noFail enc sim cname query limit s
      = (traceCall (traceCall (getEncoder s) Eff.encode) Eff.search,
         (clientSearch s cname (enc query) limit sim).map (fun r => toDict r.1 r.2)) := by
  have hcol : (traceCall (traceCall (getEncoder s) Eff.encode) Eff.search).collections
      = s.collections := by
    rw [collections_traceCall, collections_traceCall, collections_getEncoder]
  unfold search searchBody
  simp [noFail]
  rw [clientSearch_congr _ s _ _ _ _ hcol]

/-- The client returns at most `limit` scored points, sorted by score. -/
lemma clientSearch_pairwise (s : VSState) (cname : String) (qv : List Int)
    (limit : Nat) (sim : List Int → List Int → Int) :
    List.Pairwise scoreGe (clientSearch s cname qv limit sim)
    ∧ (clientSearch s cname qv limit sim).length ≤ limit := by
  unfold clientSearch
  cases findCollection s cname with
  | none => exact ⟨List.Pairwise.nil, Nat.zero_le _⟩
  | some c =>
    constructor
    · exact List.Pairwise.sublist (List.take_sublist _ _)
        (List.sorted_insertionSort scoreGe _)
    · simp [List.length_take]

/-- C6: search returns at most `limit` results, and the returned results are
exactly the client's scored points (in order) whose underlying similarity
scores are descending. -/
theorem C6_search_limited_and_ordered (enc : String → List Int)
    (sim : List Int → List Int → Int) (cname query : String) (limit : Nat)
    (s : VSState) :
    (search noFail enc sim cname query limit s).2
      = (clientSearch s cname (enc query) limit sim).map (fun r => toDict r.1 r.2)
    ∧ (search noFail enc sim cname query limit s).2.length ≤ limit
    ∧ ((clientSearch s cname (enc query) limit sim).map (fun r => r.2)).Pairwise
        (fun a b : Int => b ≤ a) := by
  obtain ⟨hsorted, hlen⟩ := clientSearch_pairwise s cname (enc query) limit sim
  refine ⟨?_, ?_, ?_⟩
  · rw [search_noFail_eq]
  · rw [search_noFail_eq]
    simpa using hlen
  · exact List.pairwise_map.mpr hsorted

end VectorStoreSpec

namespace VectorStoreSpec

/-- Specialization of `find?` on a cons cell whose head matches, stated with
an explicit head to guide unification on association lists. -/
lemma find?_cons_pos {α : Type} {p : α → Bool} (kv : α)
    (l : List α) (h : p kv = true) :
    List.find? p (kv :: l) = some kv := by
  simp [List.find?, h]

/-- Specialization of `find?` on a cons cell whose head does not match. -/
lemma find?_cons_neg {α : Type} {p : α → Bool} (kv : α)
    (l : List α) (h : ¬ (p kv = true)) :
    List.find? p (kv :: l) = List.find? p l := by
  simp [List.find?, h]

/-- Overwriting a present key: the first entry matching the key becomes the
newly written pair. -/
lemma find?_map_overwrite (d : Payload) (k : String) (v : Val)
    (h : d.any (fun kv => kv.1 == k) = true) :
    (d.map (fun kv => if kv.1 == k then (k, v) else kv)).find?
        (fun kv => kv.1 == k) = some (k, v) := by
  induction d with
  | nil => simp at h
  | cons kv rest ih =>
    simp only [List.map_cons]
    by_cases hk : (kv.1 == k) = true
    · rw [if_pos hk, find?_cons_pos (k, v) _ (by simp)]
    · have h' : rest.any (fun kv => kv.1 == k) = true := by
        simp only [List.any_cons, hk, Bool.false_or] at h
        exact h
      rw [if_neg hk, find?_cons_neg kv _ hk]
      exact ih h'

/-- Entries under other keys are unaffected by the overwrite map. -/
lemma find?_map_other (d : Payload) (k k' : String) (v : Val) (hne : k' ≠ k) :
    (d.map (fun kv => if kv.1 == k then (k, v) else kv)).find?
        (fun kv => kv.1 == k')
      = d.find? (fun kv => kv.1 == k') := by
  induction d with
  | nil => rfl
  | cons kv rest ih =>
    simp only [List.map_cons]
    by_cases hk : (kv.1 == k) = true
    · have h1 : kv.1 = k := by simpa using hk
      have h2 : ¬ ((kv.1 == k') = true) := by
        simp [h1]
        exact fun hh => hne hh.symm
      have h3 : ¬ ((((k, v) : String × Val).1 == k') = true) := by
        simp
        exact fun hh => hne hh.symm
      rw [if_pos hk, find?_cons_neg (k, v) _ h3, find?_cons_neg kv _ h2]
      exact ih
    · rw [if_neg hk]
      by_cases hk' : (kv.1 == k') = true
      · rw [find?_cons_pos kv _ hk', find?_cons_pos kv _ hk']
      · rw [find?_cons_neg kv _ hk', find?_cons_neg kv _ hk']
        exact ih

/-- Lookup after a single dict insertion. -/
lemma dictGet_dictInsert (d : Payload) (k k' : String) (v : Val) :
    dictGet (dictInsert d k v) k' = if k' = k then some v else dictGet d k' := by
  unfold dictInsert dictGet
  by_cases hany : d.any (fun kv => kv.1 == k) = true
  · rw [if_pos hany]
    by_cases hk : k' = k
    · rw [if_pos hk, hk, find?_map_overwrite d k v hany]
      rfl
    · rw [if_neg hk, find?_map_other d k k' v hk]
  · rw [if_neg hany]
    by_cases hk : k' = k
    · have hnone : d.find? (fun kv => kv.1 == k) = none := by
        rw [List.find?_eq_none]
        intro x hx hpx
        exact hany (List.any_eq_true.mpr ⟨x, hx, hpx⟩)
      rw [if_pos hk, hk, List.find?_append, hnone]
      simp [List.find?]
    · have h3 : ¬ ((((k, v) : String × Val).1 == k') = true) := by
        simp
        exact fun hh => hk hh.symm
      rw [if_neg hk, List.find?_append, find?_cons_neg (k, v) _ h3]
      simp

/-- A key absent from an association list looks up to `none`. -/
lemma dictGet_not_mem (kvs : Payload) (key : String)
    (h : key ∉ kvs.map Prod.fst) : dictGet kvs key = none := by
  unfold dictGet
  have hnone : kvs.find? (fun kv => kv.1 == key) = none := by
    rw [List.find?_eq_none]
    intro x hx hpx
    exact h (List.mem_map.mpr ⟨x, hx, by simpa using hpx⟩)
  rw [hnone]
  rfl

/-- Lookup after extending a dict with a unique-key association list: the
extension wins exactly on its own keys. -/
lemma dictGet_dictExtend (kvs : Payload) :
    ∀ (d : Payload), (kvs.map Prod.fst).Nodup → ∀ key : String,
      dictGet (dictExtend d kvs) key = (dictGet kvs key).or (dictGet d key) := by
  induction kvs with
  | nil =>
    intro d _ key
    simp [dictExtend, dictGet]
  | cons kv rest ih =>
    intro d hnd key
    rw [List.map_cons, List.nodup_cons] at hnd
    obtain ⟨hkn, hnd'⟩ := hnd
    have hstep : dictExtend d (kv :: rest) = dictExtend (dictInsert d kv.1 kv.2) rest := rfl
    rw [hstep, ih _ hnd' key]
    by_cases hk : key = kv.1
    · have h1 : dictGet rest key = none := by
        rw [hk]
        exact dictGet_not_mem rest kv.1 hkn
      have hhead : dictGet (kv :: rest) key = some kv.2 := by
        unfold dictGet
        rw [find?_cons_pos kv _ (by simp [hk])]
        rfl
      rw [h1, hhead, dictGet_dictInsert, if_pos hk]
      rfl
    · have hhead : dictGet (kv :: rest) key = dictGet rest key := by
        unfold dictGet
        rw [find?_cons_neg kv _ (by simp; exact fun hh => hk hh.symm)]
      rw [dictGet_dictInsert, if_neg hk, hhead]

/-- Filtering out the `"text"` entries does not change other lookups. -/
lemma dictGet_filter_text (pl : Payload) (key : String) (h : key ≠ "text") :
    dictGet (pl.filter (fun kv => kv.1 != "text")) key = dictGet pl key := by
  induction pl with
  | nil => rfl
  | cons kv rest ih =>
    rw [List.filter_cons]
    by_cases ht : kv.1 = "text"
    · have hfilt : (kv.1 != "text") = false := by simp [ht]
      have hmatch : ¬ ((kv.1 == key) = true) := by
        simp [ht]
        exact fun hh => h hh.symm
      rw [hfilt, if_neg Bool.false_ne_true, ih]
      unfold dictGet
      rw [find?_cons_neg kv _ hmatch]
    · have hfilt : (kv.1 != "text") = true := by simp [ht]
      rw [hfilt, if_pos rfl]
      by_cases hm : (kv.1 == key) = true
      · unfold dictGet
        rw [find?_cons_pos kv _ hm, find?_cons_pos kv _ hm]
      · unfold dictGet
        rw [find?_cons_neg kv _ hm, find?_cons_neg kv _ hm]
        exact ih

/-- C10: the returned mapping of a search result takes its `"score"` field
from the database similarity score only when the stored payload has no
`"score"` key; a payload `"score"` entry (keys are unique, as in any Python
dict) shadows the similarity score. -/
theorem C10_payload_score_shadows_similarity (enc : String → List Int)
    (sim : List Int → List Int → Int) (cname query : String) (limit : Nat)
    (s : VSState) (p : Point) (sc : Int)
    (hnd : (p.payload.map Prod.fst).Nodup) :
    (search noFail enc sim cname query limit s).2
      = (clientSearch s cname (enc query) limit sim).map (fun r => toDict r.1 r.2)
    ∧ dictGet (toDict p sc) "score"
      = some ((dictGet p.payload "score").getD (Val.num sc)) := by
  constructor
  · rw [search_noFail_eq]
  · have hsub : List.Sublist
        ((p.payload.filter (fun kv => kv.1 != "text")).map Prod.fst)
        (p.payload.map Prod.fst) :=
      List.Sublist.map Prod.fst (List.filter_sublist _)
    have hndf : ((p.payload.filter (fun kv => kv.1 != "text")).map Prod.fst).Nodup :=
      List.Nodup.sublist hsub hnd
    unfold toDict
    rw [dictGet_dictExtend _ _ hndf "score",
      dictGet_filter_text _ _ (by decide)]
    cases hsc : dictGet p.payload "score" with
    | some v => rfl
    | none => rfl

/-- Witness for C10 on a point whose payload carries its own `"score"` key. -/
theorem C10_payload_score_shadows_similarity_witness :
    (search noFail encA simA "kb" "q" 5 stateAB).2
      = (clientSearch stateAB "kb" (encA "q") 5 simA).map (fun r => toDict r.1 r.2)
    ∧ dictGet (toDict ⟨0, [1], [("text", Val.str "x"), ("score", Val.num 99)]⟩ 7) "score"
      = some ((dictGet
          (Point.payload ⟨0, [1], [("text", Val.str "x"), ("score", Val.num 99)]⟩)
          "score").getD (Val.num 7)) :=
  C10_payload_score_shadows_similarity encA simA "kb" "q" 5 stateAB
    ⟨0, [1], [("text", Val.str "x"), ("score", Val.num 99)]⟩ 7 (by decide)

end VectorStoreSpec

namespace VectorStoreSpec

@[simp] lemma noFail_getCollectionsFails : noFail.getCollectionsFails = false := rfl

@[simp] lemma noFail_createFails : noFail.createFails = false := rfl

@[simp] lemma noFail_encodeFails : noFail.encodeFails = false := rfl

@[simp] lemma noFail_scrollFails : noFail.scrollFails = false := rfl

@[simp] lemma noFail_upsertFails : noFail.upsertFails = false := rfl

@[simp] lemma noFail_searchFails : noFail.searchFails = false := rfl

/-- Scrolling depends only on the stored collections. -/
lemma scrollPoints_calls (s : VSState) (b : Bool) (cs : List Eff) (cname : String)
    (limit : Nat) :
    scrollPoints ⟨s.collections, b, cs⟩ cname limit = scrollPoints s cname limit := rfl

/-- Scrolling ignores the call trace. -/
lemma scrollPoints_traceCall (s : VSState) (e : Eff) (cname : String) (limit : Nat) :
    scrollPoints (traceCall s e) cname limit = scrollPoints s cname limit := rfl

/-- Scrolling ignores the encoder flag. -/
lemma scrollPoints_getEncoder (s : VSState) (cname : String) (limit : Nat) :
    scrollPoints (getEncoder s) cname limit = scrollPoints s cname limit := by
  unfold getEncoder
  split <;> rfl

/-- Collection lookup ignores the encoder flag. -/
lemma findCollection_getEncoder (s : VSState) (cname : String) :
    findCollection (getEncoder s) cname = findCollection s cname := by
  unfold getEncoder
  split <;> rfl

/-- The first collection named `cname` after an upsert is the old one with
the batch folded in. -/
lemma find?_map_upsert (cs : List Collection) (cname : String) (pts : List Point) :
    (cs.map (fun c => if c.name == cname
        then { c with points := pts.foldl upsertOne c.points } else c)).find?
        (fun c => c.name == cname)
      = (cs.find? (fun c => c.name == cname)).map
          (fun c => { c with points := pts.foldl upsertOne c.points }) := by
  induction cs with
  | nil => rfl
  | cons c rest ih =>
    simp only [List.map_cons]
    by_cases hc : (c.name == cname) = true
    · have hc' : (({ c with points := pts.foldl upsertOne c.points } : Collection).name
          == cname) = true := hc
      rw [if_pos hc,
        find?_cons_pos ({ c with points := pts.foldl upsertOne c.points } : Collection) _ hc',
        find?_cons_pos c _ hc]
      rfl
    · rw [if_neg hc, find?_cons_neg c _ hc, find?_cons_neg c _ hc]
      exact ih

/-- Looking up the upserted collection. -/
lemma findCollection_clientUpsert (s : VSState) (cname : String) (pts : List Point) :
    findCollection (clientUpsert s cname pts) cname
      = (findCollection s cname).map
          (fun c => { c with points := pts.foldl upsertOne c.points }) := by
  unfold findCollection clientUpsert
  exact find?_map_upsert s.collections cname pts

/-- The batch of points built by one `add_texts` call from state `s`:
the `i`-th element of `zip(vectors, texts, metadata)` becomes a point with id
`i + len(scroll(limit=1)[0])` and payload `{"text": text, **meta}`. -/
def batchPoints (enc : String → List Int) (cname : String) (texts : List String)
    (md : List Payload) (s : VSState) : List Point :=
  (List.enumFrom 0 (((texts.map enc).zip texts).zip md)).map
    (fun it => ⟨it.1 + (scrollPoints s cname 1).length, it.2.1.1,
      mkPayload it.2.1.2 it.2.2⟩)

/-- The state produced by a successful non-empty `add_texts` call. -/
def postSeedState (enc : String → List Int) (cname : String) (texts : List String)
    (md : List Payload) (s : VSState) : VSState :=
  clientUpsert
    (traceCall
      { traceCall (getEncoder s) Eff.encode with
          calls := (traceCall (getEncoder s) Eff.encode).calls
            ++ List.replicate (((texts.map enc).zip texts).zip md).length Eff.scroll }
      Eff.upsert)
    cname (batchPoints enc cname texts md s)

/-- Unrolling the point-building loop when scrolling never fails. -/
lemma buildPoints_ok (fs : FailSpec) (cname : String) (hfs : fs.scrollFails = false) :
    ∀ (triples : List ((List Int × String) × Payload)) (i : Nat) (s : VSState)
      (acc : List Point),
      buildPoints fs cname i triples s acc
        = .ok ({ s with calls := s.calls ++ List.replicate triples.length Eff.scroll },
            acc ++ (List.enumFrom i triples).map
              (fun it => ⟨it.1 + (scrollPoints s cname 1).length, it.2.1.1,
                mkPayload it.2.1.2 it.2.2⟩)) := by
  intro triples
  induction triples with
  | nil =>
    intro i s acc
    simp [buildPoints, List.enumFrom]
  | cons tr rest ih =>
    intro i s acc
    obtain ⟨⟨v, tx⟩, m⟩ := tr
    simp only [buildPoints, hfs, Bool.false_eq_true, if_false]
    rw [ih]
    simp [List.enumFrom, traceCall, List.replicate_succ, scrollPoints_traceCall,
      scrollPoints_calls, List.append_assoc]

end VectorStoreSpec

namespace VectorStoreSpec

/-- Unrolling `add_texts` on the no-failure path with matching metadata. -/
lemma add_texts_noFail_eq (enc : String → List Int) (cname : String)
    (texts : List String) (md : List Payload) (s : VSState)
    (hlen : md.length = texts.length) (hne : texts ≠ []) :
    add_texts noFail enc cname texts (some md) s
      = postSeedState enc cname texts md s := by
  obtain ⟨t, ts, rfl⟩ : ∃ t ts, texts = t :: ts := by
    cases texts with
    | nil => exact absurd rfl hne
    | cons t ts => exact ⟨t, ts, rfl⟩
  obtain ⟨m, ms, rfl⟩ : ∃ m ms, md = m :: ms := by
    cases md with
    | nil => simp at hlen
    | cons m ms => exact ⟨m, ms, rfl⟩
  unfold add_texts addTextsBody
  simp only [noFail_encodeFails, Bool.false_eq_true, if_false, List.isEmpty_cons,
    Option.getD_some, noFail_upsertFails]
  rw [buildPoints_ok noFail cname rfl]
  unfold postSeedState batchPoints
  simp [List.enumFrom, scrollPoints_traceCall, scrollPoints_getEncoder, scrollPoints_calls,
    traceCall, List.isEmpty_cons]

/-- The payloads of the built batch are exactly `{"text": t}` merged with the
matching metadata entry. -/
lemma payloads_of_triples (enc : String → List Int) :
    ∀ (texts : List String) (md : List Payload) (i : Nat),
      md.length = texts.length →
      ((List.enumFrom i (((texts.map enc).zip texts).zip md)).map
          (fun it => mkPayload it.2.1.2 it.2.2))
        = List.zipWith mkPayload texts md := by
  intro texts
  induction texts with
  | nil =>
    intro md i _
    rfl
  | cons t ts ih =>
    intro md i h
    cases md with
    | nil => simp at h
    | cons m ms =>
      simp only [List.map_cons, List.zip_cons_cons, List.enumFrom, List.zipWith_cons_cons]
      congr 1
      exact ih ms (i + 1) (by simpa using h)

/-- With defaulted (empty) metadata every payload is the singleton text dict. -/
lemma zipWith_mkPayload_replicate :
    ∀ (texts : List String),
      List.zipWith mkPayload texts (List.replicate texts.length [])
        = texts.map (fun t => [("text", Val.str t)]) := by
  intro texts
  induction texts with
  | nil => rfl
  | cons t ts ih =>
    simp only [List.length_cons, List.replicate_succ, List.zipWith_cons_cons, List.map_cons]
    rw [ih]
    rfl

/-- C9: omitted metadata defaults to one empty mapping per text, and every
upserted point's payload is the dict `{"text": t}` merged (in order, with
overwriting) with that text's metadata entries; with the default metadata the
payload is exactly the singleton text dict. -/
theorem C9_payloads_text_merged_metadata (fs : FailSpec) (enc : String → List Int)
    (cname : String) (texts : List String) (md : List Payload) (s : VSState)
    (c : Collection)
    (hc : findCollection s cname = some c)
    (hlen : md.length = texts.length)
    (hne : texts ≠ []) :
    add_texts fs enc cname texts none s
      = add_texts fs enc cname texts (some (List.replicate texts.length [])) s
    ∧ findCollection (add_texts noFail enc cname texts (some md) s) cname
      = some { c with points :=
          (batchPoints enc cname texts md s).foldl upsertOne c.points }
    ∧ (batchPoints enc cname texts md s).map Point.payload
      = List.zipWith mkPayload texts md
    ∧ List.zipWith mkPayload texts (List.replicate texts.length [])
      = texts.map (fun t => [("text", Val.str t)]) := by
  refine ⟨rfl, ?_, ?_, zipWith_mkPayload_replicate texts⟩
  · rw [add_texts_noFail_eq enc cname texts md s hlen hne]
    unfold postSeedState
    rw [findCollection_clientUpsert]
    have hfind : findCollection
        (traceCall
          { traceCall (getEncoder s) Eff.encode with
              calls := (traceCall (getEncoder s) Eff.encode).calls
                ++ List.replicate (((texts.map enc).zip texts).zip md).length Eff.scroll }
          Eff.upsert) cname
        = findCollection s cname := findCollection_getEncoder s cname
    rw [hfind, hc]
    rfl
  · unfold batchPoints
    rw [List.map_map]
    exact payloads_of_triples enc texts md 0 hlen

/-- Witness for C9 at a concrete seed call with metadata. -/
theorem C9_payloads_text_merged_metadata_witness :
    add_texts noFail encA "kb" ["a", "b"] none stateEmptyKB
      = add_texts noFail encA "kb" ["a", "b"]
          (some (List.replicate (["a", "b"] : List String).length [])) stateEmptyKB
    ∧ findCollection
        (add_texts noFail encA "kb" ["a", "b"]
          (some [[("k1", Val.num 1)], [("k1", Val.num 2)]]) stateEmptyKB) "kb"
      = some ⟨"kb", 384,
          (batchPoints encA "kb" ["a", "b"] [[("k1", Val.num 1)], [("k1", Val.num 2)]]
            stateEmptyKB).foldl upsertOne ([] : List Point)⟩
    ∧ (batchPoints encA "kb" ["a", "b"] [[("k1", Val.num 1)], [("k1", Val.num 2)]]
        stateEmptyKB).map Point.payload
      = List.zipWith mkPayload ["a", "b"] [[("k1", Val.num 1)], [("k1", Val.num 2)]]
    ∧ List.zipWith mkPayload ["a", "b"]
        (List.replicate (["a", "b"] : List String).length [])
      = (["a", "b"] : List String).map (fun t => [("text", Val.str t)]) :=
  C9_payloads_text_merged_metadata noFail encA "kb" ["a", "b"]
    [[("k1", Val.num 1)], [("k1", Val.num 2)]] stateEmptyKB ⟨"kb", 384, []⟩
    (by decide) (by decide) (by decide)

end VectorStoreSpec
